import Mathlib

/-!
# Verification of the `scheme` interpreter core (vangroan/scheme)

Shallow embedding, in Lean 4, of the parts of the `scheme-engine` crate that
the verified claims are about:

* the value model (`src/scheme-engine/src/expr.rs`),
* the environment (`src/scheme-engine/src/env.rs`, `symbol.rs`),
* the core built-in library (`src/scheme-engine/src/core.rs`),
* the bytecode and virtual machine (`src/scheme-engine/src/opcode.rs`, `vm.rs`),
* the single-pass compiler (`src/scheme-engine/src/compiler.rs`, `limits.rs`).

Modelling conventions:

* Rust `f64` is modelled by `F64`: either NaN or an exact rational.  The
  claims settled here depend on `f64` only through IEEE equality (NaN is not
  equal to anything, including itself) and through the literals `0.0` and
  `1.0`; rounding, overflow and infinities play no role in any theorem below,
  so finite arithmetic is modelled exactly.
* `Rc`/`Handle` (shared mutable cells) are modelled by explicit heaps inside
  the machine state, with handles as indices; `ptr_eq` becomes index equality.
  Immutable `Rc<Proc>` payloads are copied by value (sharing an immutable
  value is observationally the same as copying it), while identity of
  `Expr::Procedure` / `Expr::Closure` / `Expr::Pair` handles is kept as a
  plain index because the code only ever compares those by pointer.
* Rust `Result::Err(Error::Reason _)` becomes `Res.err`; Rust panics
  (`unreachable!`, `todo!`, slice-index out of bounds, `debug_assert!`)
  become `Res.panic`.  The two are distinct in the source (a returned error
  versus an aborting panic) and are kept distinct here.
* The mutually recursive compiler functions and the VM dispatch loop are
  embedded with an explicit fuel parameter; exhausting fuel yields the
  distinguished outcome `Res.fuel`, never an error of the program.
-/

namespace Scheme

/-- Model of a Rust `f64` as used by the interpreter: NaN, or an exact
finite value.  Only IEEE equality and the literals `0.0`/`1.0` matter to
the claims below. -/
inductive F64 where
  | nan : F64
  | fin (q : ℚ) : F64
deriving DecidableEq

/-- IEEE-754 equality on `f64` (Rust `==` on floats): NaN compares unequal
to everything, including itself. -/
def F64.ieeeEq : F64 → F64 → Bool
  | .fin a, .fin b => a == b
  | _, _ => false

/-- `f64` addition restricted to the fragment the claims exercise:
NaN propagates; finite values add exactly. -/
def F64.add : F64 → F64 → F64
  | .fin a, .fin b => .fin (a + b)
  | _, _ => .nan

/-- `f64` subtraction (same fragment as `F64.add`). -/
def F64.sub : F64 → F64 → F64
  | .fin a, .fin b => .fin (a - b)
  | _, _ => .nan

/-- `f64` multiplication (same fragment as `F64.add`). -/
def F64.mul : F64 → F64 → F64
  | .fin a, .fin b => .fin (a * b)
  | _, _ => .nan

/-- `Keyword` from `expr.rs`: only `Dot` exists. -/
inductive Keyword where
  | dot : Keyword
deriving DecidableEq

/-- Identity of the native functions registered by `core.rs::init_core`.
A Rust `NativeFunc` is a function pointer; the set of pointers that can
occur is exactly the set of core built-ins, so the pointer is modelled as
this enumeration. -/
inductive NativeId where
  | assert | assertEq | display | newline
  | numberIsNumber | add | sub | mul | numEq | lt | gt | le | ge
  | booleanIsBoolean | bnot | band | bor
deriving DecidableEq

/-- `Expr` from `expr.rs`: the tagged value union.  Variants that the code
shares by `Handle`/`Rc` (`Pair`, `Procedure`, `Closure`) carry the handle's
identity as a natural number (an index into the owning heap). -/
inductive Expr where
  | nil : Expr
  | void : Expr
  | bool (b : Bool) : Expr
  | number (n : F64) : Expr
  | string (s : String) : Expr
  | ident (s : String) : Expr
  | keyword (k : Keyword) : Expr
  | quote (e : Expr) : Expr
  | list (es : List Expr) : Expr
  | pair (h : Nat) : Expr
  | vector (es : List Expr) : Expr
  | sequence (es : List Expr) : Expr
  | procedure (h : Nat) : Expr
  | closure (h : Nat) : Expr
  | nativeFunc (f : NativeId) : Expr

/-- `impl PartialEq<Expr> for Expr` (`expr.rs` lines 218–235): structural
for scalars, `Rc::ptr_eq`/`Handle::ptr_eq` for `Procedure`/`Closure`, and
`false` for every other combination (including identical aggregates). -/
def exprEq : Expr → Expr → Bool
  | .nil, .nil => true
  | .void, .void => true
  | .bool a, .bool b => a == b
  | .number a, .number b => F64.ieeeEq a b
  | .string a, .string b => a == b
  | .ident a, .ident b => a == b
  | .keyword a, .keyword b => a == b
  | .procedure a, .procedure b => a == b
  | .closure a, .closure b => a == b
  | _, _ => false

/-- Outcome of a fallible interpreter operation.  `err` is a returned
`Error::Reason`; `panic` is a Rust panic (`unreachable!`, `todo!`, index
out of bounds, failed `debug_assert!`); `fuel` marks exhaustion of the
model's recursion fuel and corresponds to no behaviour of the program. -/
inductive Res (α : Type) where
  | ok (a : α) : Res α
  | err (msg : String) : Res α
  | panic (msg : String) : Res α
  | fuel : Res α

/-- Whether an outcome is a successful result. -/
def Res.isOk {α : Type} : Res α → Bool
  | .ok _ => true
  | _ => false

/-- Whether an outcome is a returned `Error::Reason`. -/
def Res.isErr {α : Type} : Res α → Bool
  | .err _ => true
  | _ => false

/-! ## Bytecode (`opcode.rs`) -/

/-- `UpValueOrigin` from `opcode.rs`: where a captured variable lives
relative to the closure being created. -/
inductive UpValueOrigin where
  | parent (localId : Nat) : UpValueOrigin
  | outer (upValueId : Nat) : UpValueOrigin
deriving DecidableEq

/-- `Op` from `opcode.rs`.  Identifier operands (`ConstantId : u16`,
`LocalId : u8`, `UpValueId : u8`, `ProcId : u16`, `SymbolId : u16`) and the
24-bit `JumpAddr` are carried as natural numbers; the width limits are
enforced where the source enforces them (`limits.rs`, `JumpAddr::new`).
`Return` and `End` are renamed `ret` and `endOp` because Lean reserves the
source spellings. -/
inductive Op where
  | bail : Op
  | pushNil : Op
  | pushVoid : Op
  | pushTrue : Op
  | pushFalse : Op
  | pushConstant (id : Nat) : Op
  | pop : Op
  | jumpFalse (addr : Nat) : Op
  | jump (addr : Nat) : Op
  | ret : Op
  | loadEnvVar (symbol : Nat) : Op
  | storeEnvVar (symbol : Nat) : Op
  | loadUpValue (id : Nat) : Op
  | storeUpValue (id : Nat) : Op
  | loadLocalVar (id : Nat) : Op
  | storeLocalVar (id : Nat) : Op
  | captureValue (origin : UpValueOrigin) : Op
  | createClosure (procId : Nat) : Op
  | callClosure (arity : Nat) : Op
  | callNative (arity : Nat) : Op
  | endOp : Op
deriving DecidableEq

/-! ## Environment (`env.rs`, `symbol.rs`) -/

/-- `Signature` from `expr.rs`: fixed arity plus a variadic flag.  The
source stores the arity in a `u8`; nothing in the embedded code wraps it,
so it is kept as a natural number. -/
structure Signature where
  arity : Nat
  variadic : Bool
deriving DecidableEq

/-- Procedure prototype (`Proc` from `expr.rs`).  The weak back-reference
to the defining environment is not carried: the machine below owns the one
environment, and the weak-reference upgrade (`proc.env.upgrade().unwrap()`)
is assumed to succeed, as the source itself does by unwrapping. -/
structure Proc where
  code : List Op
  sig : Signature
  constants : List Expr
  localCount : Nat
  upValueCount : Nat

/-- `SymbolTable::resolve`: linear scan for the first name equal to the
query. -/
def SymbolTable.resolve (symbols : List String) (name : String) : Option Nat :=
  symbols.findIdx? (fun n => n == name)

/-- `SymbolTable::intern_symbol`: reuse the existing symbol id or append. -/
def SymbolTable.internSymbol (symbols : List String) (name : String) :
    List String × Nat :=
  match SymbolTable.resolve symbols name with
  | some symbol => (symbols, symbol)
  | none => (symbols ++ [name], symbols.length)

/-- `env.rs::grow_table`: extend the table with `T::default()` entries up to
and including `index`.  `impl Default for Expr` yields `Expr::Nil`. -/
def growTable (table : List Expr) (index : Nat) : List Expr :=
  if index ≥ table.length then
    table ++ List.replicate (index + 1 - table.length) Expr.nil
  else table

/-- `Env` from `env.rs`: the symbol-interning table, the parallel
variable-value table, and the table of procedure prototypes declared in
this environment.  `procedures` holds `Rc<Proc>`; prototypes are immutable,
so the `Rc` payload is stored by value.  The source field name `variables`
is a reserved word in Lean and is shortened to `vars`. -/
structure Env where
  vars : List String
  varValues : List Expr
  procedures : List Proc

/-- `Env::resolve_var`. -/
def Env.resolveVar (env : Env) (name : String) : Option Nat :=
  SymbolTable.resolve env.vars name

/-- `Env::get_var`. -/
def Env.getVar (env : Env) (symbol : Nat) : Option Expr :=
  env.varValues.get? symbol

/-- `Env::set_var`: write the slot if it is in range, otherwise return the
"variable is not declared" error. -/
def Env.setVar (env : Env) (symbol : Nat) (value : Expr) : Res Env :=
  if symbol < env.varValues.length then
    .ok { env with varValues := env.varValues.set symbol value }
  else
    .err "variable is not declared"

/-- `Env::intern_var`: intern the name, then grow the value table to cover
the symbol's slot. -/
def Env.internVar (env : Env) (name : String) : Env × Nat :=
  let st := SymbolTable.internSymbol env.vars name
  ({ env with
      vars := st.1
      varValues := growTable env.varValues st.2 }, st.2)

/-! ## Core built-in library (`core.rs`)

The Rust error messages interpolate `file!()`/`line!()` and the `Debug`
form of the offending argument; the model keeps the stable text of each
message and drops the interpolated parts. -/

/-- `core.rs::args2`: exactly two arguments, or the wrong-arity error. -/
def args2 (args : List Expr) : Res (Expr × Expr) :=
  match args with
  | [arg1, arg2] => .ok (arg1, arg2)
  | _ => .err "wrong number of arguments passed to procedure"

/-- `core.rs::args1`: exactly one argument, or the wrong-arity error. -/
def args1 (args : List Expr) : Res Expr :=
  match args with
  | [arg1] => .ok arg1
  | _ => .err "wrong number of arguments passed to procedure"

/-- `core.rs::args2_numbers`: exactly two `Number` arguments; any other
shape (wrong count or wrong type) yields the wrong-arity error. -/
def args2Numbers (args : List Expr) : Res (F64 × F64) :=
  match args with
  | [.number arg1, .number arg2] => .ok (arg1, arg2)
  | _ => .err "wrong number of arguments passed to procedure"

/-- `core.rs::ext_assert`: `(assert <expr> <message>?)`. -/
def extAssert (_env : Env) (args : List Expr) : Res Expr :=
  match args.get? 0 with
  | none => .err "expected assertion expression"
  | some expr =>
    match expr with
    | .bool false =>
      match args.get? 1 with
      | some (.string message) => .err s!"assertion error: {message}"
      | some _ => .err "invalid assertion message type"
      | none => .err "assertion failed"
    | _ => .ok expr

/-- `core.rs::ext_assert_eq`: exactly two arguments; succeed (returning the
two-element list) iff they compare equal under `PartialEq` (`exprEq`). -/
def extAssertEq (_env : Env) (args : List Expr) : Res Expr :=
  match args2 args with
  | .ok (arg1, arg2) =>
    if exprEq arg1 arg2 then .ok (.list [arg1, arg2])
    else .err "assertion failed"
  | .err e => .err e
  | .panic m => .panic m
  | .fuel => .fuel

/-- `core.rs::display`: one argument; printing is a side effect outside the
model, the returned value is `Void`. -/
def displayNative (_env : Env) (args : List Expr) : Res Expr :=
  match args1 args with
  | .ok _ => .ok .void
  | .err e => .err e
  | .panic m => .panic m
  | .fuel => .fuel

/-- `core.rs::newline`: prints a newline (side effect outside the model)
and returns `Void`. -/
def newlineNative (_env : Env) (_args : List Expr) : Res Expr :=
  .ok .void

/-- `core.rs::number_is_number`. -/
def numberIsNumber (_env : Env) (args : List Expr) : Res Expr :=
  match args.get? 0 with
  | none => .err "wrong number of arguments passed to procedure"
  | some arg0 =>
    match arg0 with
    | .number _ => .ok (.bool true)
    | _ => .ok (.bool false)

/-- The accumulation loop of `core.rs::number_add`: fold the arguments into
the sum, failing on the first non-number. -/
def numberAddGo (sum : F64) (index : Nat) : List Expr → Res Expr
  | [] => .ok (.number sum)
  | arg :: rest =>
    match arg with
    | .number n => numberAddGo (sum.add n) (index + 1) rest
    | _ => .err s!"expected argument {index} to be a number"

/-- `core.rs::number_add`: variadic sum starting from `0.0`. -/
def numberAdd (_env : Env) (args : List Expr) : Res Expr :=
  numberAddGo (.fin 0) 0 args

/-- The accumulation loop of `core.rs::number_sub` over the rest of the
arguments. -/
def numberSubGo (sum : F64) (index : Nat) : List Expr → Res Expr
  | [] => .ok (.number sum)
  | arg :: rest =>
    match arg with
    | .number n => numberSubGo (sum.sub n) (index + 1) rest
    | _ => .err s!"expected argument {index} to be a number"

/-- `core.rs::number_sub`: the accumulator starts from the first argument
(`(- 5)` is `5`); zero arguments is the wrong-arity error; a non-number
first argument is a type error. -/
def numberSub (_env : Env) (args : List Expr) : Res Expr :=
  match args with
  | [] => .err "wrong number of arguments passed to procedure"
  | arg0 :: rest =>
    match arg0 with
    | .number first => numberSubGo first 0 rest
    | _ => .err "expected first argument to be a number"

/-- The accumulation loop of `core.rs::number_mul`. -/
def numberMulGo (sum : F64) (index : Nat) : List Expr → Res Expr
  | [] => .ok (.number sum)
  | arg :: rest =>
    match arg with
    | .number n => numberMulGo (sum.mul n) (index + 1) rest
    | _ => .err s!"expected argument {index} to be a number"

/-- `core.rs::number_mul`: variadic product starting from `1.0`. -/
def numberMul (_env : Env) (args : List Expr) : Res Expr :=
  numberMulGo (.fin 1) 0 args

/-- `slice::windows(2)` as used by `number_eq`: all adjacent pairs; a slice
of length `≤ 1` has no windows. -/
def windows2 (args : List Expr) : List (Expr × Expr) :=
  args.zip args.tail

/-- The chained-comparison loop of `core.rs::number_eq` over the length-2
windows: two numbers compare with `!=` (IEEE); any window containing a
non-number is a type error; an unequal window short-circuits to `#f`. -/
def numberEqGo : List (Expr × Expr) → Res Expr
  | [] => .ok (.bool true)
  | (a, b) :: rest =>
    match a, b with
    | .number x, .number y =>
      if F64.ieeeEq x y then numberEqGo rest else .ok (.bool false)
    | _, _ => .err "expected argument to be a number"

/-- `core.rs::number_eq`: chained `=` over adjacent pairs; with zero or one
argument there are no windows and the result is `#t`. -/
def numberEq (_env : Env) (args : List Expr) : Res Expr :=
  numberEqGo (windows2 args)

/-- `core.rs::number_lt`. -/
def numberLt (_env : Env) (args : List Expr) : Res Expr :=
  match args2Numbers args with
  | .ok (a, b) =>
    .ok (.bool (match a, b with
      | .fin x, .fin y => x < y
      | _, _ => false))
  | .err e => .err e
  | .panic m => .panic m
  | .fuel => .fuel

/-- `core.rs::number_gt`. -/
def numberGt (_env : Env) (args : List Expr) : Res Expr :=
  match args2Numbers args with
  | .ok (a, b) =>
    .ok (.bool (match a, b with
      | .fin x, .fin y => x > y
      | _, _ => false))
  | .err e => .err e
  | .panic m => .panic m
  | .fuel => .fuel

/-- `core.rs::number_lt_eq`. -/
def numberLtEq (_env : Env) (args : List Expr) : Res Expr :=
  match args2Numbers args with
  | .ok (a, b) =>
    .ok (.bool (match a, b with
      | .fin x, .fin y => x ≤ y
      | _, _ => false))
  | .err e => .err e
  | .panic m => .panic m
  | .fuel => .fuel

/-- `core.rs::number_gt_eq`. -/
def numberGtEq (_env : Env) (args : List Expr) : Res Expr :=
  match args2Numbers args with
  | .ok (a, b) =>
    .ok (.bool (match a, b with
      | .fin x, .fin y => x ≥ y
      | _, _ => false))
  | .err e => .err e
  | .panic m => .panic m
  | .fuel => .fuel

/-- `core.rs::boolean_is_boolean`. -/
def booleanIsBoolean (_env : Env) (args : List Expr) : Res Expr :=
  match args.get? 0 with
  | none => .err "wrong number of arguments passed to procedure"
  | some arg0 =>
    match arg0 with
    | .bool _ => .ok (.bool true)
    | _ => .ok (.bool false)

/-- `core.rs::boolean_not`: more than one argument is the wrong-arity
error; otherwise the code indexes `&args[0]` directly, which on an empty
argument slice is an out-of-bounds panic, and with one argument answers
whether the argument is literally `#f`. -/
def booleanNot (_env : Env) (args : List Expr) : Res Expr :=
  if args.length > 1 then
    .err "wrong number of arguments passed to procedure"
  else
    match args with
    | [] => .panic "index out of bounds: the len is 0 but the index is 0"
    | arg0 :: _ =>
      match arg0 with
      | .bool false => .ok (.bool true)
      | _ => .ok (.bool false)

/-- The fold of `core.rs::boolean_and`: return `#f` on the first literal
`#f`, otherwise remember the last argument. -/
def booleanAndGo (acc : Expr) : List Expr → Res Expr
  | [] => .ok acc
  | arg :: rest =>
    match arg with
    | .bool false => .ok (.bool false)
    | _ => booleanAndGo arg rest

/-- `core.rs::boolean_and` (eager, as bound by `init_core`). -/
def booleanAnd (_env : Env) (args : List Expr) : Res Expr :=
  booleanAndGo (.bool true) args

/-- `core.rs::boolean_or`: `todo!()`. -/
def booleanOr (_env : Env) (_args : List Expr) : Res Expr :=
  .panic "not yet implemented"

/-- Dispatch a `NativeFunc` pointer (`vm.rs` invokes `func(env, args)`).
None of the core natives mutates the environment, so the environment is
passed read-only and returned unchanged by the VM. -/
def applyNative (f : NativeId) (env : Env) (args : List Expr) : Res Expr :=
  match f with
  | .assert => extAssert env args
  | .assertEq => extAssertEq env args
  | .display => displayNative env args
  | .newline => newlineNative env args
  | .numberIsNumber => numberIsNumber env args
  | .add => numberAdd env args
  | .sub => numberSub env args
  | .mul => numberMul env args
  | .numEq => numberEq env args
  | .lt => numberLt env args
  | .gt => numberGt env args
  | .le => numberLtEq env args
  | .ge => numberGtEq env args
  | .booleanIsBoolean => booleanIsBoolean env args
  | .bnot => booleanNot env args
  | .band => booleanAnd env args
  | .bor => booleanOr env args

/-! ## Virtual machine (`vm.rs`, `expr.rs::UpValue`)

The operand stack `operand : List Expr` is indexed from the bottom
(index 0), exactly like the Rust `Vec<Expr>`: `push` appends at the end,
`pop` removes the last element.  `Handle<UpValue>` and `Handle<Closure>`
allocations live in the explicit heaps `upCells` and `closures`; a handle
is an index, `Handle::clone` copies the index, and `Handle::ptr_eq` is
index equality. -/

/-- `UpValue` from `expr.rs`: a two-state cell.  `Open` carries an absolute
index into the operand stack; `Closed` owns a value.  (`open` is a Lean
keyword, so the constructor is spelled `opn`.) -/
inductive UpValue where
  | opn (stackPos : Nat) : UpValue
  | closed (value : Expr) : UpValue

/-- `Closure` from `expr.rs`: a shared prototype plus up-value handles.
The immutable `Rc<Proc>` payload is stored by value; `upValues` holds
handles (heap indices) into `Machine.upCells`. -/
structure ClosureData where
  proc : Proc
  upValues : List Nat

/-- `CallFrame` from `vm.rs`. -/
structure Frame where
  closureH : Nat
  stackOffset : Nat
  upValues : List Nat
  pc : Nat

/-- The machine: the `Vm` struct (operand stack and call stack) together
with the heaps backing `Handle` allocations and the single shared
environment. -/
structure Machine where
  operand : List Expr
  frames : List Frame
  upCells : List UpValue
  closures : List ClosureData
  env : Env

/-- `ProcAction` from `vm.rs`: message from the instruction loop to the
outer control.  `Call` carries the callee closure handle and the new
frame's `stack_offset`; `Return` is spelled `ret`. -/
inductive ProcAction where
  | call (closureH : Nat) (stackOffset : Nat) : ProcAction
  | tailCall : ProcAction
  | ret (value : Expr) : ProcAction

/-- Result of executing one opcode inside `run_instructions`: either fall
through to the next instruction (with the mutated machine, frame and
program counter), or leave the inner loop with a `ProcAction`, an error,
or a panic. -/
inductive StepOut where
  | next (m : Machine) (frame : Frame) (pc : Nat) : StepOut
  | action (m : Machine) (frame : Frame) (a : ProcAction) : StepOut
  | err (msg : String) : StepOut
  | panic (msg : String) : StepOut

/-- Outcome of the `Op::CreateClosure` capture-argument loop. -/
inductive CapOut where
  | ok (upCells : List UpValue) (frameUps : List Nat) (ups : List Nat)
      (pc : Nat) : CapOut
  | err (msg : String) : CapOut
  | panic (msg : String) : CapOut

/-- The capture-argument loop of `Op::CreateClosure` (`vm.rs` lines
314–354): consume exactly `count` following instructions, each of which
must be a `CaptureValue`.  A `Parent(localId)` origin allocates a fresh
`Open` cell at absolute stack index `stack_offset + localId` and hands the
same new handle to both the closure under construction and the current
frame's open-up-value list; an `Outer(upValueId)` origin copies the
running closure's existing handle into the closure under construction
only. -/
def captureLoop (ops : List Op) (stackOffset : Nat) (curUps : List Nat) :
    Nat → List UpValue → List Nat → List Nat → Nat → CapOut
  | 0, cells, frameUps, ups, pc => .ok cells frameUps ups pc
  | count + 1, cells, frameUps, ups, pc =>
    match ops.get? pc with
    | none => .panic "index out of bounds"
    | some (.captureValue (.parent localId)) =>
      let cell := cells.length
      captureLoop ops stackOffset curUps count
        (cells ++ [.opn (stackOffset + localId)])
        (frameUps ++ [cell]) (ups ++ [cell]) (pc + 1)
    | some (.captureValue (.outer upValueId)) =>
      match curUps.get? upValueId with
      | none => .panic "index out of bounds"
      | some cell =>
        captureLoop ops stackOffset curUps count
          cells frameUps (ups ++ [cell]) (pc + 1)
    | some _ => .err "invalid capture-value argument instruction"

/-- The up-value-closing loop of `Op::Return` (`vm.rs` lines 227–233):
drain the departing frame's open-up-value list; each cell still `Open`
reads the operand stack at its absolute position (a direct index — out of
bounds would panic) and is closed in place. -/
def closeUpValues (operand : List Expr) :
    List Nat → List UpValue → Res (List UpValue)
  | [], cells => .ok cells
  | h :: rest, cells =>
    match cells.get? h with
    | none => .panic "borrow of invalid up-value handle"
    | some (.opn stackPos) =>
      match operand.get? stackPos with
      | none => .panic "index out of bounds"
      | some value => closeUpValues operand rest (cells.set h (.closed value))
    | some (.closed _) => closeUpValues operand rest cells

/-- One iteration of the dispatch loop `run_instructions` (`vm.rs` lines
193–423): fetch `ops[pc]` from the current closure's prototype, advance
the program counter, and execute the opcode. -/
def stepInstr (m : Machine) (frame : Frame) (pc : Nat) : StepOut :=
  match m.closures.get? frame.closureH with
  | none => .panic "borrow of invalid closure handle"
  | some cd =>
    let ops := cd.proc.code
    match ops.get? pc with
    | none => .panic "index out of bounds"
    | some op =>
      let pc := pc + 1
      match op with
      | .bail => .panic "Bail!"
      | .pushNil => .next { m with operand := m.operand ++ [.nil] } frame pc
      | .pushVoid => .next { m with operand := m.operand ++ [.void] } frame pc
      | .pushTrue =>
        .next { m with operand := m.operand ++ [.bool true] } frame pc
      | .pushFalse =>
        .next { m with operand := m.operand ++ [.bool false] } frame pc
      | .jumpFalse addr =>
        match m.operand.getLast? with
        | some (.bool false) => .next m frame addr
        | _ => .next m frame pc
      | .jump addr => .next m frame addr
      | .ret =>
        let value := m.operand.getLast?.getD .void
        let operand := m.operand.dropLast
        match closeUpValues operand frame.upValues m.upCells with
        | .ok cells =>
          .action { m with operand := operand, upCells := cells }
            { frame with upValues := [] } (.ret value)
        | .err e => .err e
        | .panic s => .panic s
        | .fuel => .panic "unreachable"
      | .loadEnvVar symbol =>
        let value := (m.env.getVar symbol).getD .void
        .next { m with operand := m.operand ++ [value] } frame pc
      | .storeEnvVar symbol =>
        let value := m.operand.getLast?.getD .void
        match m.env.setVar symbol value with
        | .ok env => .next { m with env := env } frame pc
        | .err e => .err e
        | .panic s => .panic s
        | .fuel => .panic "unreachable"
      | .loadUpValue upValueId =>
        match cd.upValues.get? upValueId with
        | none => .panic "index out of bounds"
        | some h =>
          match m.upCells.get? h with
          | none => .panic "borrow of invalid up-value handle"
          | some (.opn stackPos) =>
            match m.operand.get? stackPos with
            | none => .panic "index out of bounds"
            | some value =>
              .next { m with operand := m.operand ++ [value] } frame pc
          | some (.closed value) =>
            .next { m with operand := m.operand ++ [value] } frame pc
      | .storeUpValue upValueId =>
        let value := m.operand.getLast?.getD .void
        match cd.upValues.get? upValueId with
        | none => .panic "index out of bounds"
        | some h =>
          match m.upCells.get? h with
          | none => .panic "borrow of invalid up-value handle"
          | some (.opn stackPos) =>
            if stackPos < m.operand.length then
              .next { m with operand := m.operand.set stackPos value } frame pc
            else .panic "index out of bounds"
          | some (.closed _) =>
            .next { m with upCells := m.upCells.set h (.closed value) } frame pc
      | .loadLocalVar localId =>
        let value := (m.operand.get? (frame.stackOffset + localId)).getD .void
        .next { m with operand := m.operand ++ [value] } frame pc
      | .storeLocalVar localId =>
        let value := m.operand.getLast?.getD .void
        if frame.stackOffset + localId < m.operand.length then
          .next { m with operand := m.operand.set (frame.stackOffset + localId) value }
            frame pc
        else .panic "index out of bounds"
      | .pushConstant constantId =>
        let value := (cd.proc.constants.get? constantId).getD .void
        .next { m with operand := m.operand ++ [value] } frame pc
      | .pop => .next { m with operand := m.operand.dropLast } frame pc
      | .captureValue _ =>
        .panic "capture-value must only be processed by closure creation"
      | .createClosure procId =>
        match m.env.procedures.get? procId with
        | none => .err "expected procedure definition"
        | some prototype =>
          match captureLoop ops frame.stackOffset cd.upValues
              prototype.upValueCount m.upCells frame.upValues [] pc with
          | .ok cells frameUps ups pc2 =>
            let h := m.closures.length
            .next
              { m with
                  upCells := cells
                  closures := m.closures ++ [⟨prototype, ups⟩]
                  operand := m.operand ++ [.closure h] }
              { frame with upValues := frameUps } pc2
          | .err e => .err e
          | .panic s => .panic s
      | .callClosure arity =>
        if arity > m.operand.length then
          .panic "attempt to subtract with overflow"
        else
          let lo := m.operand.length - arity
          match lo, m.operand.get? (lo - 1) with
          | 0, _ => .panic "index out of bounds"
          | _ + 1, none => .panic "index out of bounds"
          | _ + 1, some (.closure closureH) =>
            .action m frame (.call closureH lo)
          | _ + 1, some _ => .err "invalid callable type"
      | .callNative arity =>
        if arity > m.operand.length then
          .panic "attempt to subtract with overflow"
        else
          let lo := m.operand.length - arity
          match lo, m.operand.get? (lo - 1) with
          | 0, _ => .panic "index out of bounds"
          | _ + 1, none => .panic "index out of bounds"
          | lo' + 1, some (.nativeFunc func) =>
            match applyNative func m.env (m.operand.drop (lo' + 1)) with
            | .ok value =>
              .next { m with operand := (m.operand.take lo') ++ [value] } frame pc
            | .err e => .err e
            | .panic s => .panic s
            | .fuel => .panic "unreachable"
          | _ + 1, some (.closure closureH) =>
            .action m { frame with pc := pc } (.call closureH lo)
          | _ + 1, some (.procedure _) =>
            .panic "other call types not implemented yet"
          | _ + 1, some _ => .err "invalid callable type"
      | .endOp => .panic "internal error: entered unreachable code: end"

/-- The inner dispatch loop: execute instructions until one of them leaves
the loop with a `ProcAction` (fuelled). -/
def runInstrs : Nat → Machine → Frame → Nat → Res (Machine × Frame × ProcAction)
  | 0, _, _, _ => .fuel
  | fuelLeft + 1, m, frame, pc =>
    match stepInstr m frame pc with
    | .next m1 f1 pc1 => runInstrs fuelLeft m1 f1 pc1
    | .action m1 f1 a => .ok (m1, f1, a)
    | .err e => .err e
    | .panic s => .panic s

/-- `Vm::prepare`: extend the operand stack with `local_count` `Void`
slots for the frame about to run. -/
def Machine.prepare (m : Machine) (frame : Frame) : Res Machine :=
  match m.closures.get? frame.closureH with
  | none => .panic "borrow of invalid closure handle"
  | some cd =>
    .ok { m with operand := m.operand ++ List.replicate cd.proc.localCount .void }

/-- The outer control loop `run_interpreter` (`vm.rs` lines 140–175),
minus the initial frame pop and `prepare` (done by `vmRunArgs`):
dispatch on the `ProcAction` returned by the instruction loop. -/
def runInterp : Nat → Machine → Frame → Res Expr
  | 0, _, _ => .fuel
  | fuelLeft + 1, m, frame =>
    match runInstrs (fuelLeft + 1) m frame frame.pc with
    | .ok (m1, f1, .call closureH stackOffset) =>
      let newFrame : Frame := ⟨closureH, stackOffset, [], 0⟩
      let m2 := { m1 with frames := m1.frames ++ [f1] }
      match m2.prepare newFrame with
      | .ok m3 => runInterp fuelLeft m3 newFrame
      | .err e => .err e
      | .panic s => .panic s
      | .fuel => .fuel
    | .ok (_, _, .tailCall) => .panic "not yet implemented: tail call"
    | .ok (m1, f1, .ret value) =>
      match f1.stackOffset with
      | 0 => .panic "attempt to subtract with overflow"
      | so + 1 =>
        let m2 := { m1 with operand := m1.operand.take so }
        match m2.frames.getLast? with
        | some prevFrame =>
          runInterp fuelLeft
            { m2 with
                frames := m2.frames.dropLast
                operand := m2.operand ++ [value] }
            prevFrame
        | none =>
          if m2.operand.isEmpty then .ok value
          else .panic "assertion failed: when evaluation is done only the initial closure must be left on the stack"
    | .err e => .err e
    | .panic s => .panic s
    | .fuel => .fuel

/-- `Vm::run_args` (`vm.rs` lines 81–111) followed by `run_interpreter`'s
initial frame pop and `prepare`: refuse to run when frames are already
active, push the callee closure and the arguments, and enter the loop.
The caller supplies the pre-existing heaps and environment. -/
def vmRunArgs (fuelLeft : Nat) (upCells : List UpValue)
    (closures : List ClosureData) (env : Env) (closureH : Nat)
    (args : List Expr) (frames : List Frame) (operand : List Expr) : Res Expr :=
  if frames.isEmpty then
    let operand1 := operand ++ [Expr.closure closureH] ++ args
    let stackOffset := operand1.length - args.length
    let frame : Frame := ⟨closureH, stackOffset, [], 0⟩
    let m : Machine := ⟨operand1, frames, upCells, closures, env⟩
    match m.prepare frame with
    | .ok m1 => runInterp fuelLeft m1 frame
    | .err e => .err e
    | .panic s => .panic s
    | .fuel => .fuel
  else .err "machine is already executing a closure"

/-- `vm::call` / `vm::eval`: run on a fresh machine (empty operand and call
stacks). -/
def vmCall (fuelLeft : Nat) (upCells : List UpValue)
    (closures : List ClosureData) (env : Env) (closureH : Nat)
    (args : List Expr) : Res Expr :=
  vmRunArgs fuelLeft upCells closures env closureH args [] []

/-! ## Compiler (`compiler.rs`, `limits.rs`)

`compiler.rs` in this snapshot predates the `sig`/`local_count`/
`up_value_count` fields of `Proc`: its `take_procedure` and
`ProcState::into_proc` construct a procedure from exactly `code`, `arity`,
`variadic` and `constants`, and closures are emitted as
`CreateClosure(constant_id)` with the prototype stored in the constant
pool.  The compiler-side prototype is therefore modelled by its own record
`CompiledProc` mirroring those fields. -/

/-- `limits.rs::MAX_LOCALS = 1 << 8`: maximum number of local variables per
call frame. -/
def MAX_LOCALS : Nat := 256

/-- `limits.rs::MAX_JUMP_ADDR = 1 << 24`. -/
def MAX_JUMP_ADDR : Nat := 16777216

/-- `compiler.rs::Local`: a local-variable slot on the lexical stack. -/
structure Local where
  id : Nat
  name : String
  depth : Nat
deriving DecidableEq

/-- `compiler.rs::ProcState`: mutable bookkeeping for the procedure being
compiled. -/
structure ProcState where
  code : List Op
  arity : Nat
  variadic : Bool
  constants : List Expr

/-- `ProcState::new`. -/
def ProcState.new : ProcState := ⟨[], 0, false, []⟩

/-- `ProcState::emit_op`. -/
def ProcState.emitOp (p : ProcState) (op : Op) : ProcState :=
  { p with code := p.code ++ [op] }

/-- The procedure record built by `Compiler::take_procedure` and
`ProcState::into_proc` in this version of `compiler.rs`. -/
structure CompiledProc where
  code : List Op
  arity : Nat
  variadic : Bool
  constants : List Expr

/-- `compiler.rs::Context`: the lexical-scope context. -/
inductive Context where
  | topLevel : Context
  | bodyStart : Context
  | bodyRest : Context
deriving DecidableEq

/-- `compiler.rs::Compiler`.  `allocProcs` is the model's allocation record
for `Rc::new(proc)` calls made by `compile_lambda_form`: each freshly
allocated prototype gets the next index as its `Rc` identity (used only
for the pointer equality inside `add_constant`'s deduplication). -/
structure Compiler where
  env : Env
  proc : ProcState
  procStack : List ProcState
  context : Context
  depth : Nat
  locals : List Local
  stackOffset : Nat
  allocProcs : List CompiledProc

/-- Emit an op into the procedure under construction
(`self.proc.emit_op(op)`). -/
def Compiler.emitOp (c : Compiler) (op : Op) : Compiler :=
  { c with proc := c.proc.emitOp op }

/-- `Compiler::add_constant`: deduplicating via `PartialEq` (`exprEq`);
returns the `ConstantId` of the existing or appended slot. -/
def Compiler.addConstant (c : Compiler) (value : Expr) : Compiler × Nat :=
  match c.proc.constants.findIdx? (fun el => exprEq el value) with
  | some index => (c, index)
  | none =>
    ({ c with proc := { c.proc with constants := c.proc.constants ++ [value] } },
      c.proc.constants.length)

/-- The reverse scan of `Compiler::declare_local` (`compiler.rs` lines
601–614) over the already-reversed locals stack: stop at the first local
from a different depth; report a duplicate if a same-depth local has the
queried name. -/
def findDuplicate : List Local → Nat → String → Bool
  | [], _, _ => false
  | l :: rest, depth, name =>
    if l.depth ≠ depth then false
    else if name == l.name then true
    else findDuplicate rest depth name

/-- `Compiler::declare_local` (`compiler.rs` lines 600–631): reject a
duplicate in the current scope, reject when the new slot index
(`locals.len() - stack_offset`) reaches `MAX_LOCALS`, otherwise push the
local and return its id. -/
def Compiler.declareLocal (c : Compiler) (name : String) : Res (Compiler × Nat) :=
  if findDuplicate c.locals.reverse c.depth name then
    .err s!"duplicate definition of local variable {name}"
  else
    let index := c.locals.length - c.stackOffset
    if index ≥ MAX_LOCALS then
      .err s!"number of local variables in scope exceeds maximum of {MAX_LOCALS}"
    else
      .ok ({ c with locals := c.locals ++ [⟨index, name, c.depth⟩] }, index)

/-- The locals scan of `Compiler::compile_access` (`compiler.rs` lines
234–244) over the reversed locals stack: first local with the queried
name. -/
def findLocal (locals : List Local) (name : String) : Option Local :=
  locals.find? (fun l => name == l.name)

/-- `Compiler::compile_access`: resolve a name against the locals stack
(innermost first; a hit outside the current depth is a `todo!()` panic in
this version), then against the environment; unknown names are the
"unbound variable" error. -/
def Compiler.compileAccess (c : Compiler) (name : String) : Res Compiler :=
  match findLocal c.locals.reverse name with
  | some l =>
    if c.depth ≠ l.depth then
      .panic "not yet implemented: up-values for locals outside of the current scope"
    else .ok (c.emitOp (.loadLocalVar l.id))
  | none =>
    match c.env.resolveVar name with
    | some symbol => .ok (c.emitOp (.loadEnvVar symbol))
    | none => .err s!"unbound variable {name}"

/-- The formal-parameter loop of `Compiler::compile_lambda_form`
(`compiler.rs` lines 462–487): declare each identifier as a local; after a
`Dot` keyword the next identifier is declared and the loop breaks;
anything else is an error.  The loop's `variadic` flag is a local variable
that the source never copies into `ProcState.variadic`. -/
def declareParams : Compiler → List Expr → Bool → Res Compiler
  | c, [], _ => .ok c
  | c, param :: rest, variadic =>
    match param with
    | .ident name =>
      match c.declareLocal name with
      | .ok (c1, _) =>
        if variadic then .ok c1
        else
          declareParams
            { c1 with proc := { c1.proc with arity := c1.proc.arity + 1 } }
            rest variadic
      | .err e => .err e
      | .panic s => .panic s
      | .fuel => .fuel
    | .keyword .dot => declareParams c rest true
    | _ => .err "parameter must be an identifier"

mutual

/-- `Compiler::compile_expr` (`compiler.rs` lines 183–219). -/
def compileExpr : Nat → Compiler → Expr → Res Compiler
  | 0, _, _ => .fuel
  | fuelLeft + 1, c, expr =>
    match expr with
    | .nil => .ok (c.emitOp .pushNil)
    | .number _ =>
      let r := c.addConstant expr
      .ok (r.1.emitOp (.pushConstant r.2))
    | .bool b => .ok (c.emitOp (if b then .pushTrue else .pushFalse))
    | .ident name => c.compileAccess name
    | .list l => compileForm fuelLeft c l
    | .sequence _ => compileSequence fuelLeft c expr
    | _ => .panic "not yet implemented: compile_expr"

/-- `Compiler::compile_sequence` (`compiler.rs` lines 158–177). -/
def compileSequence : Nat → Compiler → Expr → Res Compiler
  | 0, _, _ => .fuel
  | fuelLeft + 1, c, expr =>
    match expr with
    | .sequence es => compileSeqList fuelLeft c es
    | _ => .err "expected a sequence or nil"

/-- The `split_last` loop shared verbatim by `compile_sequence` and the
`BodyRest` part of `compile_body`: compile every expression but the last
and discard its value with a `Pop`; the last expression's value stays. -/
def compileSeqList : Nat → Compiler → List Expr → Res Compiler
  | 0, _, _ => .fuel
  | _ + 1, c, [] => .ok c
  | fuelLeft + 1, c, [last] => compileExpr fuelLeft c last
  | fuelLeft + 1, c, e :: rest =>
    match compileExpr fuelLeft c e with
    | .ok c1 => compileSeqList fuelLeft (c1.emitOp .pop) rest
    | .err e => .err e
    | .panic s => .panic s
    | .fuel => .fuel

/-- `Compiler::compile_form` (`compiler.rs` lines 260–267). -/
def compileForm : Nat → Compiler → List Expr → Res Compiler
  | 0, _, _ => .fuel
  | fuelLeft + 1, c, l =>
    match compileSpecialForm fuelLeft c l with
    | .ok (c1, true) => .ok c1
    | .ok (c1, false) => compileCall fuelLeft c1 l
    | .err e => .err e
    | .panic s => .panic s
    | .fuel => .fuel

/-- `Compiler::compile_special_form` (`compiler.rs` lines 279–317):
`define` and `lambda` are lowered; the remaining recognized names are
`todo!()` panics; anything else is not a special form. -/
def compileSpecialForm : Nat → Compiler → List Expr → Res (Compiler × Bool)
  | 0, _, _ => .fuel
  | fuelLeft + 1, c, l =>
    match l with
    | .ident operator :: rest =>
      if operator == "define" then
        match compileDefineForm fuelLeft c rest with
        | .ok (c1, _) => .ok (c1, true)
        | .err e => .err e
        | .panic s => .panic s
        | .fuel => .fuel
      else if operator == "lambda" then
        match compileLambdaForm fuelLeft c rest with
        | .ok c1 => .ok (c1, true)
        | .err e => .err e
        | .panic s => .panic s
        | .fuel => .fuel
      else if operator == "let" then .panic "not yet implemented: let form"
      else if operator == "let*" then .panic "not yet implemented: let* form"
      else if operator == "letrec" then .panic "not yet implemented: letrec form"
      else if operator == "fluid-let" then .panic "not yet implemented: fluid-let form"
      else if operator == "set!" then .panic "not yet implemented: set! form"
      else if operator == "quote" then .panic "not yet implemented: quote form"
      else .ok (c, false)
    | _ => .ok (c, false)

/-- `Compiler::compile_call` (`compiler.rs` lines 319–368): look the
operator up in the environment (the value is read at compile time, before
the arguments are compiled), emit `LoadEnvVar`, compile the arguments,
then dispatch on the looked-up value's type; only a `NativeFunc` operator
is supported (`CallNative`), closures and other types are `todo!()`
panics. -/
def compileCall : Nat → Compiler → List Expr → Res Compiler
  | 0, _, _ => .fuel
  | fuelLeft + 1, c, l =>
    match l with
    | [] => .err "ill-formed expression"
    | .ident identName :: rest =>
      match c.env.resolveVar identName with
      | none => .err s!"unbound variable {identName}"
      | some symbol =>
        match c.env.getVar symbol with
        | none => .panic "called Option::unwrap on a None value"
        | some value =>
          let c1 := c.emitOp (.loadEnvVar symbol)
          match compileArgs fuelLeft c1 rest with
          | .ok c2 =>
            match value with
            | .closure _ => .panic "not yet implemented: call closure"
            | .nativeFunc _ => .ok (c2.emitOp (.callNative rest.length))
            | .procedure _ => .panic "procedures cannot be called directly"
            | _ => .panic "not yet implemented: call type not supported yet"
          | .err e => .err e
          | .panic s => .panic s
          | .fuel => .fuel
    | _ :: _ => .err "operator is not a procedure"

/-- The argument loop of `Compiler::compile_call`. -/
def compileArgs : Nat → Compiler → List Expr → Res Compiler
  | 0, _, _ => .fuel
  | _ + 1, c, [] => .ok c
  | fuelLeft + 1, c, a :: rest =>
    match compileExpr fuelLeft c a with
    | .ok c1 => compileArgs fuelLeft c1 rest
    | .err e => .err e
    | .panic s => .panic s
    | .fuel => .fuel

/-- `Compiler::compile_define_form` (`compiler.rs` lines 384–429), the
identifier form: intern the variable, compile the body expression (a
missing body defaults to `Nil`), then emit according to the context —
top level: `StoreEnvVar`, `Pop`, `PushVoid`; body start: declare a local
and `StoreLocalVar`; body rest: the define-misplacement error.  The
`(define (f ...) ...)` procedure form is a `todo!()` panic. -/
def compileDefineForm : Nat → Compiler → List Expr → Res (Compiler × Nat)
  | 0, _, _ => .fuel
  | fuelLeft + 1, c, rest =>
    match rest.get? 0 with
    | none => .err "identifier expected"
    | some (.ident varName) =>
      let iv := c.env.internVar varName
      let body := (rest.get? 1).getD Expr.nil
      match compileExpr fuelLeft { c with env := iv.1 } body with
      | .ok c1 =>
        match c1.context with
        | .topLevel =>
          .ok (((c1.emitOp (.storeEnvVar iv.2)).emitOp .pop).emitOp .pushVoid,
            iv.2)
        | .bodyStart =>
          match c1.declareLocal varName with
          | .ok (c2, localId) => .ok (c2.emitOp (.storeLocalVar localId), iv.2)
          | .err e => .err e
          | .panic s => .panic s
          | .fuel => .fuel
        | .bodyRest =>
          .err "ill-formed special form: define must appear at top-level or first in body"
      | .err e => .err e
      | .panic s => .panic s
      | .fuel => .fuel
    | some (.list _) => .panic "not yet implemented: procedure definition"
    | some _ => .err "ill-formed special form"

/-- `Compiler::compile_lambda_form` (`compiler.rs` lines 438–515) for the
list-of-formals shape: enter a fresh `ProcState` and a deeper scope
(`proc_scope`), declare the formals, compile the body, then restore the
outer procedure, store the finished prototype as a constant of the outer
procedure (a fresh `Rc` allocation) and emit
`CreateClosure(constant_id)`.  A bare-identifier formal is `todo!()`; the
compiled prototype keeps `ProcState.variadic`, which the source never
sets.  No `Return` is emitted in this version. -/
def compileLambdaForm : Nat → Compiler → List Expr → Res Compiler
  | 0, _, _ => .fuel
  | fuelLeft + 1, c, rest =>
    match rest with
    | [] =>
      .err "ill-formed special form: lambda expects formal parameters followed by a body"
    | formals :: body =>
      let prevProc := c.proc
      let cIn := { c with proc := ProcState.new, depth := c.depth + 1 }
      match formals with
      | .ident _ => .panic "not yet implemented"
      | .list params =>
        match declareParams { cIn with proc := { cIn.proc with arity := 0 } }
            params false with
        | .ok c1 =>
          match compileBody fuelLeft c1 body with
          | .ok c2 =>
            let ps := c2.proc
            let c3 := { c2 with proc := prevProc, depth := c2.depth - 1 }
            let compiled : CompiledProc := ⟨ps.code, ps.arity, ps.variadic, ps.constants⟩
            let procH := c3.allocProcs.length
            let c4 := { c3 with allocProcs := c3.allocProcs ++ [compiled] }
            let ac := c4.addConstant (.procedure procH)
            .ok (ac.1.emitOp (.createClosure ac.2))
          | .err e => .err e
          | .panic s => .panic s
          | .fuel => .fuel
        | .err e => .err e
        | .panic s => .panic s
        | .fuel => .fuel
      | _ => .err "parameter must be an identifier"

/-- `Compiler::compile_body` (`compiler.rs` lines 518–565): in `BodyStart`
context, scan the body for leading `define` forms (compiling each); then
compile the remaining expressions in `BodyRest` context with the
`split_last`/`Pop` sequencing; finally restore the outer context. -/
def compileBody : Nat → Compiler → List Expr → Res Compiler
  | 0, _, _ => .fuel
  | fuelLeft + 1, c, rest =>
    match bodyDefinesLoop fuelLeft { c with context := .bodyStart } rest rest rest with
    | .ok (c1, bodyExprs) =>
      match compileSeqList fuelLeft { c1 with context := .bodyRest } bodyExprs with
      | .ok c2 => .ok { c2 with context := c.context }
      | .err e => .err e
      | .panic s => .panic s
      | .fuel => .fuel
    | .err e => .err e
    | .panic s => .panic s
    | .fuel => .fuel

/-- The define-scanning loop at the start of `Compiler::compile_body`
(`compiler.rs` lines 526–543).  It iterates over all of `rest`; compiling
a `define` resets the remaining-body slice to `&rest[1..]` (the source
always drops exactly one element, regardless of how many defines were
seen); a list not starting with an identifier is skipped; any other
expression stops the scan. -/
def bodyDefinesLoop :
    Nat → Compiler → List Expr → List Expr → List Expr → Res (Compiler × List Expr)
  | 0, _, _, _, _ => .fuel
  | _ + 1, c, [], _, bodyExprs => .ok (c, bodyExprs)
  | fuelLeft + 1, c, expr :: iterRest, rest, bodyExprs =>
    match expr with
    | .list l =>
      match l with
      | .ident defName :: defRest =>
        if defName == "define" then
          match compileDefineForm fuelLeft c defRest with
          | .ok (c1, _) => bodyDefinesLoop fuelLeft c1 iterRest rest (rest.drop 1)
          | .err e => .err e
          | .panic s => .panic s
          | .fuel => .fuel
        else if defName == "define-syntax" then
          .panic "not yet implemented: define-syntax"
        else .ok (c, bodyExprs)
      | _ => bodyDefinesLoop fuelLeft c iterRest rest bodyExprs
    | _ => .ok (c, bodyExprs)

end

/-- `Compiler::compile_end`: emit the `End` sentinel. -/
def Compiler.compileEnd (c : Compiler) : Compiler :=
  c.emitOp .endOp

/-- `compiler.rs::compile`: compile a top-level expression against an
environment into a zero-arity procedure whose body ends with `End`
(`Compiler::take_procedure`). -/
def compileTopLevel (fuelLeft : Nat) (env : Env) (expr : Expr) :
    Res (Compiler × CompiledProc) :=
  let c : Compiler := ⟨env, ProcState.new, [], .topLevel, 0, [], 0, []⟩
  match compileExpr fuelLeft c expr with
  | .ok c1 =>
    let c2 := c1.compileEnd
    .ok (c2, ⟨c2.proc.code, 0, false, c2.proc.constants⟩)
  | .err e => .err e
  | .panic s => .panic s
  | .fuel => .fuel

/-- Fold `declare_local` over a list of names (used to state the
local-count limit claims). -/
def declareLocals (c : Compiler) : List String → Res Compiler
  | [] => .ok c
  | name :: rest =>
    match c.declareLocal name with
    | .ok (c1, _) => declareLocals c1 rest
    | .err e => .err e
    | .panic s => .panic s
    | .fuel => .fuel

/-! ## Concrete scenarios used by the theorems -/

/-- An empty environment (no bindings, no procedures). -/
def env0 : Env := ⟨[], [], []⟩

/-- Variants that `PartialEq<Expr>` compares by content or by handle
identity (the "scalars" of the specification, with `Procedure`/`Closure`
compared by pointer); every other variant falls into the catch-all
`_ => false` arm. -/
def Expr.isScalar : Expr → Bool
  | .nil | .void | .bool _ | .number _ | .string _ | .ident _ | .keyword _
  | .procedure _ | .closure _ => true
  | _ => false

/-- Whether a value is the NaN number. -/
def Expr.isNaN : Expr → Bool
  | .number .nan => true
  | _ => false

/-- A prototype of declared fixed arity 1 whose body just returns `#t`. -/
def procArity1 : Proc := ⟨[.pushTrue, .ret], ⟨1, false⟩, [], 1, 0⟩

/-- A zero-arity top-level prototype: `#t` followed by the `End`
sentinel, exactly the code that `compileTopLevel` produces for the
program `#t`. -/
def procTopEnd : Proc := ⟨[.pushTrue, .endOp], ⟨0, false⟩, [], 0, 0⟩

/-- An inner prototype that captures one up-value (its body is irrelevant
to the capture semantics). -/
def protoInner : Proc := ⟨[], ⟨0, false⟩, [], 0, 1⟩

/-- A prototype that creates two closures, each capturing local slot 0 of
the running frame via a `Parent` origin, then returns. -/
def procTwoCaptures : Proc :=
  ⟨[.createClosure 0, .captureValue (.parent 0),
    .createClosure 0, .captureValue (.parent 0), .ret],
    ⟨0, false⟩, [], 1, 0⟩

/-- Environment carrying `protoInner` as `ProcId` 0. -/
def envTwoCaptures : Env := ⟨[], [], [protoInner]⟩

/-- Machine mid-execution of `procTwoCaptures` (closure handle 0): the
operand stack holds the running closure and its one local (the number 7,
at absolute stack index 1). -/
def mTwoCaptures : Machine :=
  ⟨[.closure 0, .number (.fin 7)], [], [], [⟨procTwoCaptures, []⟩], envTwoCaptures⟩

/-- The frame running `procTwoCaptures`: locals begin at stack index 1. -/
def fTwoCaptures : Frame := ⟨0, 1, [], 0⟩

/-- Run one more dispatch step if the previous one fell through. -/
def stepOutNext : StepOut → StepOut
  | .next m f pc => stepInstr m f pc
  | s => s

/-- A machine about to execute `CallClosure{0}`: the top-level closure's
code is a single `CallClosure`, and the operand stack holds the callee —
a closure whose prototype declares fixed arity 1. -/
def mCallWrongArity : Machine :=
  ⟨[.closure 1], [],  [],
    [⟨⟨[.callClosure 0], ⟨0, false⟩, [], 0, 0⟩, []⟩, ⟨procArity1, []⟩], env0⟩

/-- The frame for `mCallWrongArity`. -/
def fCallWrongArity : Frame := ⟨0, 1, [], 0⟩

/-- A closure heap whose handle 0 is a `JumpFalse`-testing prototype. -/
def closuresJumpFalse : List ClosureData :=
  [⟨⟨[.jumpFalse 5], ⟨0, false⟩, [], 0, 0⟩, []⟩]

/-- Fresh compiler state over `env0` in a given context. -/
def freshCompiler (ctx : Context) : Compiler :=
  ⟨env0, ProcState.new, [], ctx, 0, [], 0, []⟩

/-- The `i`-th local-variable name: a run of `i` letters `a`; distinct
indices give distinct names. -/
def localName (i : Nat) : String := ⟨List.replicate i 'a'⟩

/-- 256 pairwise-distinct local-variable names. -/
def names256 : List String := (List.range 256).map localName

/-- 257 pairwise-distinct local-variable names. -/
def names257 : List String := (List.range 257).map localName

/-! ## Claims -/

/-- **C8.** Calling the built-in `-` with zero arguments returns a
RuntimeError; `+` with zero arguments returns the Number `0`; `*` with
zero arguments returns the Number `1`. -/
theorem c8_arith_zero_args (env : Env) :
    numberSub env [] = .err "wrong number of arguments passed to procedure" ∧
    numberAdd env [] = .ok (.number (.fin 0)) ∧
    numberMul env [] = .ok (.number (.fin 1)) :=
  ⟨rfl, rfl, rfl⟩

/-- **C9.** The built-in `=` with zero arguments or with exactly one
argument returns `#t` and never errors, regardless of the argument's type
(the windows-of-two loop never runs, so the number type check is only
reached with at least two arguments). -/
theorem c9_number_eq_zero_one_args (env : Env) (x : Expr) :
    numberEq env [] = .ok (.bool true) ∧
    numberEq env [x] = .ok (.bool true) :=
  ⟨rfl, rfl⟩

/-- **C8 witness.** `c8_arith_zero_args` applied to the concrete empty
environment. -/
theorem c8_arith_zero_args_witness :
    numberSub env0 [] = .err "wrong number of arguments passed to procedure" ∧
    numberAdd env0 [] = .ok (.number (.fin 0)) ∧
    numberMul env0 [] = .ok (.number (.fin 1)) :=
  c8_arith_zero_args env0

/-- **C9 witness.** `c9_number_eq_zero_one_args` applied to the concrete
empty environment with the (non-number) argument `Nil`. -/
theorem c9_number_eq_zero_one_args_witness :
    numberEq env0 [] = .ok (.bool true) ∧
    numberEq env0 [.nil] = .ok (.bool true) :=
  c9_number_eq_zero_one_args env0 .nil

/-- **C10.** The built-in `not` returns a wrong-number-of-arguments error
for every argument list of length greater than one; with exactly one
argument it succeeds, returning `#t` iff the argument is literally `#f`;
with zero arguments it panics via out-of-bounds indexing of the argument
slice instead of returning an arity error. -/
theorem c10_boolean_not_behavior (env : Env) (args : List Expr) (x : Expr) :
    (args.length > 1 →
      booleanNot env args = .err "wrong number of arguments passed to procedure") ∧
    (booleanNot env [x]).isOk = true ∧
    (booleanNot env [x] = .ok (.bool true) ↔ x = .bool false) ∧
    booleanNot env [] = .panic "index out of bounds: the len is 0 but the index is 0" := by
  refine ⟨fun h => ?_, ?_, ?_, rfl⟩
  · simp only [booleanNot, if_pos h]
  · cases x with
    | bool b => cases b <;> rfl
    | _ => rfl
  · constructor
    · intro h
      cases x with
      | bool b =>
        cases b
        · rfl
        · exact absurd h (by simp [booleanNot])
      | nil => exact absurd h (by simp [booleanNot])
      | void => exact absurd h (by simp [booleanNot])
      | number n => exact absurd h (by simp [booleanNot])
      | string s => exact absurd h (by simp [booleanNot])
      | ident s => exact absurd h (by simp [booleanNot])
      | keyword k => exact absurd h (by simp [booleanNot])
      | quote e => exact absurd h (by simp [booleanNot])
      | list es => exact absurd h (by simp [booleanNot])
      | pair p => exact absurd h (by simp [booleanNot])
      | vector es => exact absurd h (by simp [booleanNot])
      | sequence es => exact absurd h (by simp [booleanNot])
      | procedure p => exact absurd h (by simp [booleanNot])
      | closure c => exact absurd h (by simp [booleanNot])
      | nativeFunc f => exact absurd h (by simp [booleanNot])
    · intro h
      subst h
      rfl

/-- **C10 witness.** The hypotheses of `c10_boolean_not_behavior`
discharged at `args = [Nil, Nil]`, `x = #f`. -/
theorem c10_boolean_not_behavior_witness :
    booleanNot env0 [.nil, .nil] = .err "wrong number of arguments passed to procedure" ∧
    booleanNot env0 [.bool false] = .ok (.bool true) :=
  ⟨(c10_boolean_not_behavior env0 [.nil, .nil] .nil).1 (by decide),
    ((c10_boolean_not_behavior env0 [] (.bool false)).2.2.1).2 rfl⟩

/-- On scalar, non-NaN values, `PartialEq<Expr>` coincides with structural
equality of the model values (handles compared by identity). -/
theorem exprEq_true_iff (x y : Expr) (hx : x.isScalar = true)
    (hy : y.isScalar = true) (hnx : x.isNaN = false) (hny : y.isNaN = false) :
    exprEq x y = true ↔ x = y := by
  cases x <;> cases y <;>
    first
    | (rename_i n m; cases n <;> cases m <;>
        simp_all [exprEq, Expr.isScalar, Expr.isNaN, F64.ieeeEq])
    | simp_all [exprEq, Expr.isScalar, Expr.isNaN, F64.ieeeEq]

/-- **C4 counterexample.** The claim "`assert-eq(x, x)` never raises for
any value x" is false: for `x` the (one and the same) empty `List` value,
`assert-eq` raises, because `PartialEq<Expr>` answers `false` for every
aggregate variant, even on identical values. -/
theorem c4_assert_eq_identical_list_raises :
    extAssertEq env0 [.list [], .list []] = .err "assertion failed" := rfl

/-- **C4 (amended).** `assert-eq(x, x)` never raises exactly when `x` is a
scalar (Nil, Void, Bool, String, Ident, Keyword, or a handle-compared
Procedure/Closure) other than the NaN number; for such scalars `x`, `y`,
`assert-eq(x, y)` raises iff `x ≠ y` (structurally, with handles compared
by identity).  For aggregate values and NaN, `assert-eq(x, x)` always
raises. -/
theorem c4_assert_eq_scalar_iff (env : Env) (x y : Expr) :
    ((extAssertEq env [x, x]).isOk = (x.isScalar && !x.isNaN)) ∧
    (x.isScalar = true → y.isScalar = true → x.isNaN = false → y.isNaN = false →
      ((extAssertEq env [x, y]).isErr = true ↔ x ≠ y)) := by
  constructor
  · cases x with
    | number n => cases n <;> simp [extAssertEq, args2, exprEq, Expr.isScalar,
        Expr.isNaN, F64.ieeeEq, Res.isOk]
    | _ => simp [extAssertEq, args2, exprEq, Expr.isScalar, Expr.isNaN,
        F64.ieeeEq, Res.isOk]
  · intro hx hy hnx hny
    have h := exprEq_true_iff x y hx hy hnx hny
    by_cases he : exprEq x y = true
    · have hxy : x = y := h.mp he
      subst hxy
      simp [extAssertEq, args2, he, Res.isErr]
    · have he' : exprEq x y = false := by
        cases hb : exprEq x y
        · rfl
        · exact absurd hb he
      simp only [extAssertEq, args2, he', Bool.false_eq_true, if_false,
        Res.isErr, true_iff]
      exact fun hxy => he (h.mpr hxy)

/-- **C4 witness.** The hypotheses of `c4_assert_eq_scalar_iff`
discharged at the scalars `x = Number 1`, `y = Number 2`:
`assert-eq(1, 1)` does not raise and `assert-eq(1, 2)` raises. -/
theorem c4_assert_eq_scalar_iff_witness :
    ((extAssertEq env0 [.number (.fin 1), .number (.fin 1)]).isOk = true) ∧
    ((extAssertEq env0 [.number (.fin 1), .number (.fin 2)]).isErr = true) :=
  ⟨(c4_assert_eq_scalar_iff env0 (.number (.fin 1)) (.number (.fin 1))).1,
    ((c4_assert_eq_scalar_iff env0 (.number (.fin 1)) (.number (.fin 2))).2
      rfl rfl rfl rfl).2 (by simp)⟩

/-- A name matching no local on the (reversed) stack is not reported as a
duplicate by the scan of `declare_local`. -/
theorem findDuplicate_eq_false (locals : List Local) (depth : Nat)
    (name : String) (h : ∀ l ∈ locals, name ≠ l.name) :
    findDuplicate locals depth name = false := by
  induction locals with
  | nil => rfl
  | cons l rest ih =>
    simp only [findDuplicate]
    by_cases hd : l.depth ≠ depth
    · simp [hd]
    · have hne : name ≠ l.name := h l (by simp)
      have hbeq : (name == l.name) = false := beq_eq_false_iff_ne.mpr hne
      simp only [hd, if_false, hbeq]
      exact ih (fun x hx => h x (List.mem_cons_of_mem _ hx))

/-- `declare_local` succeeds on a fresh name while the slot index is below
`MAX_LOCALS`, appending the new local. -/
theorem declareLocal_ok (c : Compiler) (name : String)
    (hfresh : ∀ l ∈ c.locals, name ≠ l.name)
    (hlim : c.locals.length - c.stackOffset < MAX_LOCALS) :
    c.declareLocal name =
      .ok ({ c with locals :=
              c.locals ++ [⟨c.locals.length - c.stackOffset, name, c.depth⟩] },
        c.locals.length - c.stackOffset) := by
  have hdup : findDuplicate c.locals.reverse c.depth name = false :=
    findDuplicate_eq_false _ _ _ (fun l hl => hfresh l (List.mem_reverse.mp hl))
  simp [Compiler.declareLocal, hdup, Nat.not_le.mpr hlim]

/-- `declare_local` fails with the limit error once the slot index reaches
`MAX_LOCALS`, even for a fresh name. -/
theorem declareLocal_limit (c : Compiler) (name : String)
    (hfresh : ∀ l ∈ c.locals, name ≠ l.name)
    (hlim : c.locals.length - c.stackOffset ≥ MAX_LOCALS) :
    c.declareLocal name =
      .err "number of local variables in scope exceeds maximum of 256" := by
  have hdup : findDuplicate c.locals.reverse c.depth name = false :=
    findDuplicate_eq_false _ _ _ (fun l hl => hfresh l (List.mem_reverse.mp hl))
  simp [Compiler.declareLocal, hdup, hlim]
  rfl

/-- Folding `declare_local` over pairwise-distinct names that are all
fresh succeeds while the frame stays within `MAX_LOCALS`, and the
resulting locals stack is the old one extended by one slot per name. -/
theorem declareLocals_ok (names : List String) : ∀ (c : Compiler),
    (∀ n ∈ names, ∀ l ∈ c.locals, n ≠ l.name) →
    names.Nodup →
    c.stackOffset ≤ c.locals.length →
    c.locals.length - c.stackOffset + names.length ≤ MAX_LOCALS →
    ∃ c', declareLocals c names = .ok c' ∧
      c'.locals.length = c.locals.length + names.length ∧
      c'.stackOffset = c.stackOffset ∧
      c'.depth = c.depth ∧
      (∀ l ∈ c'.locals, l ∈ c.locals ∨ l.name ∈ names) := by
  induction names with
  | nil =>
    intro c _ _ _ _
    exact ⟨c, rfl, by simp, rfl, rfl, fun l hl => Or.inl hl⟩
  | cons name rest ih =>
    intro c hfresh hnodup hso hlim
    have hstep := declareLocal_ok c name
      (fun l hl => hfresh name (by simp) l hl)
      (by simp [MAX_LOCALS] at hlim ⊢; omega)
    have hrest := ih
      { c with locals :=
          c.locals ++ [⟨c.locals.length - c.stackOffset, name, c.depth⟩] }
      (by
        intro n hn l hl
        simp only [List.mem_append, List.mem_singleton] at hl
        rcases hl with hl | hl
        · exact hfresh n (List.mem_cons_of_mem _ hn) l hl
        · subst hl
          intro hcon
          have hn' : name ∈ rest := by
            have hne : n = name := by simpa using hcon
            exact hne ▸ hn
          exact (List.nodup_cons.mp hnodup).1 hn')
      (List.nodup_cons.mp hnodup).2
      (by simp; omega)
      (by simp [MAX_LOCALS] at hlim ⊢; omega)
    obtain ⟨c', hc', hlen, hso', hd', hmem⟩ := hrest
    refine ⟨c', ?_, ?_, ?_, ?_, ?_⟩
    · simp only [declareLocals, hstep, hc']
    · simp at hlen ⊢; omega
    · exact hso'
    · exact hd'
    · intro l hl
      rcases hmem l hl with hl' | hl'
      · simp only [List.mem_append, List.mem_singleton] at hl'
        rcases hl' with hl'' | hl''
        · exact Or.inl hl''
        · exact Or.inr (by simp [hl''])
      · exact Or.inr (List.mem_cons_of_mem _ hl')

/-- `declareLocals` distributes over list append. -/
theorem declareLocals_append (xs ys : List String) : ∀ (c : Compiler),
    declareLocals c (xs ++ ys) =
      match declareLocals c xs with
      | .ok c' => declareLocals c' ys
      | .err e => .err e
      | .panic s => .panic s
      | .fuel => .fuel := by
  induction xs with
  | nil => intro c; rfl
  | cons x rest ih =>
    intro c
    simp only [List.cons_append, declareLocals]
    cases c.declareLocal x with
    | ok p => exact ih p.1
    | err e => rfl
    | panic s => rfl
    | fuel => rfl

/-- `localName` is injective (the names are runs of `a` of distinct
lengths). -/
theorem localName_injective : Function.Injective localName := by
  intro a b h
  have hdata : List.replicate a 'a' = List.replicate b 'a' :=
    congrArg String.data h
  have := congrArg List.length hdata
  simpa using this

/-- There are 256 names in `names256`. -/
theorem names256_length : names256.length = 256 := by
  rw [names256, List.length_map, List.length_range]

/-- The names in `names256` are pairwise distinct. -/
theorem names256_nodup : names256.Nodup :=
  (List.nodup_range 256).map localName_injective

/-- **C6 counterexample.** The claim "a procedure with 256 locals fails to
compile" is false: declaring 256 pairwise-distinct locals in one procedure
(one call frame) succeeds — the limit check `index >= MAX_LOCALS` only
rejects slot index 256, i.e. the 257th local. -/
theorem c6_256_locals_succeed :
    (declareLocals (freshCompiler .bodyStart) names256).isOk = true := by
  obtain ⟨c', hc', -⟩ := declareLocals_ok names256 (freshCompiler .bodyStart)
    (by intro n _ l hl; simp [freshCompiler] at hl)
    names256_nodup
    (Nat.le_refl 0)
    (by rw [names256_length]; exact Nat.le_refl _)
  rw [hc']
  rfl

/-- **C6 (amended).** Declaring locals within one procedure succeeds for a
procedure with exactly 256 locals (slot indices 0–255, the full 8-bit
`LocalId` range) and fails with a CompileError on the 257th local. -/
theorem c6_locals_limit_is_256 :
    (declareLocals (freshCompiler .bodyStart) names256).isOk = true ∧
    declareLocals (freshCompiler .bodyStart) names257 =
      .err "number of local variables in scope exceeds maximum of 256" := by
  obtain ⟨c', hc', hlen, hso, -, hmem⟩ :=
    declareLocals_ok names256 (freshCompiler .bodyStart)
      (by intro n _ l hl; simp [freshCompiler] at hl)
      names256_nodup
      (Nat.le_refl 0)
      (by rw [names256_length]; exact Nat.le_refl _)
  constructor
  · rw [hc']
    rfl
  · have hsplit : names257 = names256 ++ [localName 256] := by
      rw [names257, names256, show (257 : Nat) = 256 + 1 from rfl,
        List.range_succ, List.map_append]
      rfl
    rw [hsplit, declareLocals_append, hc']
    have hfresh : ∀ l ∈ c'.locals, localName 256 ≠ l.name := by
      intro l hl
      rcases hmem l hl with hl' | hl'
      · simp [freshCompiler] at hl'
      · intro hcon
        simp only [names256, List.mem_map] at hl'
        obtain ⟨i, hi, hname⟩ := hl'
        have : i = 256 := localName_injective (by rw [hname, ← hcon])
        simp [this] at hi
    have hlim : c'.locals.length - c'.stackOffset ≥ MAX_LOCALS := by
      rw [hlen, names256_length, hso]
      exact Nat.le_refl _
    simp only [declareLocals, declareLocal_limit c' (localName 256) hfresh hlim]

/-- **C2.** The spec says the `End` sentinel terminates the top-level
program with the top-of-stack as result, like a `Return`; `compile` does
emit `End` as the final opcode of every top-level program (first
conjunct, for the program `#t`), but the dispatch arm for `Op::End` is
`unreachable!("end")`: executing the compiled program panics instead of
returning the top-of-stack value `#t` (second conjunct). -/
theorem c2_end_opcode_panics :
    (match compileTopLevel 10 env0 (.sequence [.bool true]) with
      | .ok (_, p) => p.code = [.pushTrue, .endOp]
      | _ => False) ∧
    vmCall 100 [] [⟨procTopEnd, []⟩] env0 0 [] =
      .panic "internal error: entered unreachable code: end" :=
  ⟨rfl, rfl⟩

/-- **C1 counterexample.** The claim "calling a closure whose prototype
has fixed arity n with a number of arguments different from n yields a
wrong-arity RuntimeError" is false: `vm::call` of a closure with declared
`Signature { arity: 1, variadic: false }` and an empty argument list runs
to completion and returns the body's value `#t` — no error of any kind is
produced. -/
theorem c1_wrong_arity_call_succeeds :
    procArity1.sig = ⟨1, false⟩ ∧
    vmCall 100 [] [⟨procArity1, []⟩] env0 0 [] = .ok (.bool true) :=
  ⟨rfl, rfl⟩

/-- **C1 (amended).** The VM performs no arity check when calling
closures: executing `CallClosure{arity}` only checks that the value just
below the `arity` arguments is a `Closure` — if it is, the dispatch hands
a `Call` action to the driver regardless of the prototype's declared
arity (the prototype is not consulted at all); a non-closure callable is
the invalid-callable RuntimeError.  In particular a call with exactly the
declared number of arguments never errors on arity either. -/
theorem c1_callClosure_no_arity_check (m : Machine) (frame : Frame)
    (pc arity hClosure : Nat) (cd : ClosureData)
    (h1 : m.closures.get? frame.closureH = some cd)
    (h2 : cd.proc.code.get? pc = some (.callClosure arity))
    (h3 : arity + 1 ≤ m.operand.length)
    (h4 : m.operand.get? (m.operand.length - arity - 1) = some (.closure hClosure)) :
    stepInstr m frame pc =
      .action m frame (.call hClosure (m.operand.length - arity)) := by
  obtain ⟨lo, hlo⟩ : ∃ lo, m.operand.length - arity = lo + 1 :=
    ⟨m.operand.length - arity - 1, by omega⟩
  simp only [stepInstr, h1, h2]
  rw [if_neg (by omega)]
  simp only [hlo]
  have h4' : m.operand.get? lo = some (.closure hClosure) := by
    rw [← h4]
    congr 1
    omega
  simp only [Nat.add_sub_cancel, h4']

/-- **C1 witness.** The hypotheses of `c1_callClosure_no_arity_check`
discharged on the concrete machine `mCallWrongArity`: the callee's
prototype declares arity 1, the call site passes 0 arguments, and the
step still yields a `Call` action. -/
theorem c1_callClosure_no_arity_check_witness :
    stepInstr mCallWrongArity fCallWrongArity 0 =
      .action mCallWrongArity fCallWrongArity (.call 1 1) :=
  c1_callClosure_no_arity_check mCallWrongArity fCallWrongArity 0 0 1
    ⟨⟨[.callClosure 0], ⟨0, false⟩, [], 0, 0⟩, []⟩ rfl rfl (by decide) rfl

/-- **C7.** Executing `JumpFalse(addr)` pops nothing — the machine state
(operand stack included) is unchanged — and the program counter becomes
`addr` exactly when the top-of-stack value is literally `#f`; otherwise
(any other value, or an empty stack) execution falls through to the next
instruction. -/
theorem c7_jumpFalse_non_popping (m : Machine) (frame : Frame)
    (pc addr : Nat) (cd : ClosureData)
    (h1 : m.closures.get? frame.closureH = some cd)
    (h2 : cd.proc.code.get? pc = some (.jumpFalse addr)) :
    stepInstr m frame pc =
      .next m frame
        (match m.operand.getLast? with
          | some (.bool false) => addr
          | _ => pc + 1) := by
  simp only [stepInstr, h1, h2]
  rcases hL : m.operand.getLast? with - | v
  · rfl
  · cases v with
    | bool b => cases b <;> rfl
    | _ => rfl

/-- **C7 witness.** The hypotheses of `c7_jumpFalse_non_popping`
discharged on a concrete machine whose top-of-stack is `#f`: the jump is
taken and the stack is untouched. -/
theorem c7_jumpFalse_non_popping_witness :
    stepInstr ⟨[.bool false], [], [], closuresJumpFalse, env0⟩ ⟨0, 1, [], 0⟩ 0 =
      .next ⟨[.bool false], [], [], closuresJumpFalse, env0⟩ ⟨0, 1, [], 0⟩ 5 :=
  c7_jumpFalse_non_popping ⟨[.bool false], [], [], closuresJumpFalse, env0⟩
    ⟨0, 1, [], 0⟩ 0 5 ⟨⟨[.jumpFalse 5], ⟨0, false⟩, [], 0, 0⟩, []⟩ rfl rfl

/-- **C3 counterexample.** The claim "closures that capture the same local
slot of the same enclosing frame hold the same shared open up-value cell
handle" is false: running the two `CreateClosure`/`CaptureValue(Parent 0)`
sequences of `procTwoCaptures` (same frame, same local slot 0, i.e. the
same absolute stack index 1) creates two closures holding *distinct* cell
handles 0 and 1 — the heap now contains two separate `Open 1` cells, one
per capture, both also registered in the frame's open-up-value list. -/
theorem c3_sibling_closures_get_distinct_cells :
    stepOutNext (stepInstr mTwoCaptures fTwoCaptures 0) =
      .next
        ⟨[.closure 0, .number (.fin 7), .closure 1, .closure 2], [],
          [.opn 1, .opn 1],
          [⟨procTwoCaptures, []⟩, ⟨protoInner, [0]⟩, ⟨protoInner, [1]⟩],
          envTwoCaptures⟩
        ⟨0, 1, [0, 1], 0⟩ 4 := rfl

/-- **C3 (amended).** Every `CaptureValue` with `Parent` origin allocates
a *fresh* open up-value cell: executing `CreateClosure` over a prototype
with one `Parent(localId)` capture appends a brand-new `Open` cell (index
= the old cell-heap length, pointing at the frame's local slot) to the
heap, hands that handle to the new closure and registers it with the
current frame — so closures created by distinct `CreateClosure`
executions never share a cell, even when they capture the same local
slot.  A cell handle is shared only through an `Outer(upValueId)`
capture, which copies the *running closure's* existing handle into the
new closure (allocating nothing and registering nothing with the
frame). -/
theorem c3_parent_capture_allocates_fresh_cell :
    (∀ (m : Machine) (frame : Frame) (pc procId lid : Nat) (proto : Proc)
        (cd : ClosureData),
      m.closures.get? frame.closureH = some cd →
      cd.proc.code.get? pc = some (.createClosure procId) →
      m.env.procedures.get? procId = some proto →
      proto.upValueCount = 1 →
      cd.proc.code.get? (pc + 1) = some (.captureValue (.parent lid)) →
      stepInstr m frame pc =
        .next
          { m with
              upCells := m.upCells ++ [.opn (frame.stackOffset + lid)]
              closures := m.closures ++ [⟨proto, [m.upCells.length]⟩]
              operand := m.operand ++ [.closure m.closures.length] }
          { frame with upValues := frame.upValues ++ [m.upCells.length] }
          (pc + 2)) ∧
    (∀ (m : Machine) (frame : Frame) (pc procId uid cell : Nat) (proto : Proc)
        (cd : ClosureData),
      m.closures.get? frame.closureH = some cd →
      cd.proc.code.get? pc = some (.createClosure procId) →
      m.env.procedures.get? procId = some proto →
      proto.upValueCount = 1 →
      cd.proc.code.get? (pc + 1) = some (.captureValue (.outer uid)) →
      cd.upValues.get? uid = some cell →
      stepInstr m frame pc =
        .next
          { m with
              closures := m.closures ++ [⟨proto, [cell]⟩]
              operand := m.operand ++ [.closure m.closures.length] }
          frame (pc + 2)) := by
  constructor
  · intro m frame pc procId lid proto cd h1 h2 h3 h4 h5
    simp only [stepInstr, h1, h2, h3, h4, captureLoop, h5, List.nil_append]
  · intro m frame pc procId uid cell proto cd h1 h2 h3 h4 h5 h6
    simp only [stepInstr, h1, h2, h3, h4, captureLoop, h5, h6, List.nil_append]

/-- **C3 witness.** The hypotheses of
`c3_parent_capture_allocates_fresh_cell` discharged on the concrete
machine `mTwoCaptures` (first conjunct: a `Parent` capture of local 0) and
on a follow-up machine whose running closure already owns cell 5 (second
conjunct: an `Outer` capture sharing that handle). -/
theorem c3_parent_capture_allocates_fresh_cell_witness :
    stepInstr mTwoCaptures fTwoCaptures 0 =
      .next
        { mTwoCaptures with
            upCells := [.opn 1]
            closures := mTwoCaptures.closures ++ [⟨protoInner, [0]⟩]
            operand := mTwoCaptures.operand ++ [.closure 1] }
        { fTwoCaptures with upValues := [0] } 2 ∧
    stepInstr
        ⟨[], [], [.closed .nil, .closed .nil, .closed .nil, .closed .nil,
            .closed .nil, .closed .nil],
          [⟨⟨[.createClosure 0, .captureValue (.outer 0)], ⟨0, false⟩, [], 0, 0⟩,
            [5]⟩],
          envTwoCaptures⟩ ⟨0, 0, [], 0⟩ 0 =
      .next
        ⟨[.closure 1], [],
          [.closed .nil, .closed .nil, .closed .nil, .closed .nil,
            .closed .nil, .closed .nil],
          [⟨⟨[.createClosure 0, .captureValue (.outer 0)], ⟨0, false⟩, [], 0, 0⟩,
            [5]⟩, ⟨protoInner, [5]⟩],
          envTwoCaptures⟩ ⟨0, 0, [], 0⟩ 2 := by
  constructor
  · exact (c3_parent_capture_allocates_fresh_cell.1) mTwoCaptures fTwoCaptures
      0 0 0 protoInner ⟨procTwoCaptures, []⟩ rfl rfl rfl rfl rfl
  · exact (c3_parent_capture_allocates_fresh_cell.2)
      ⟨[], [], [.closed .nil, .closed .nil, .closed .nil, .closed .nil,
          .closed .nil, .closed .nil],
        [⟨⟨[.createClosure 0, .captureValue (.outer 0)], ⟨0, false⟩, [], 0, 0⟩,
          [5]⟩],
        envTwoCaptures⟩ ⟨0, 0, [], 0⟩ 0 0 0 5 protoInner
      ⟨⟨[.createClosure 0, .captureValue (.outer 0)], ⟨0, false⟩, [], 0, 0⟩, [5]⟩
      rfl rfl rfl rfl rfl rfl

/-- Inversion of a successful `declare_local`: the result compiler is the
input with one local appended (same procedure state), and the returned id
is the new slot index. -/
theorem declareLocal_inv (c : Compiler) (name : String) (c' : Compiler)
    (lid : Nat) (h : c.declareLocal name = .ok (c', lid)) :
    c' = { c with locals := c.locals ++ [⟨lid, name, c.depth⟩] } ∧
    lid = c.locals.length - c.stackOffset := by
  unfold Compiler.declareLocal at h
  by_cases hd : findDuplicate c.locals.reverse c.depth name
  · simp [hd] at h
  · simp only [hd, Bool.false_eq_true, if_false] at h
    by_cases hl : c.locals.length - c.stackOffset ≥ MAX_LOCALS
    · simp [hl] at h
    · simp only [if_neg hl, Res.ok.injEq, Prod.mk.injEq] at h
      obtain ⟨h1, h2⟩ := h
      subst h2
      exact ⟨h1.symm, rfl⟩

/-- **C5.** Compiling the identifier form `(define x E)` first compiles
`E` (after interning `x` in the environment), and then: in `TopLevel`
context emits `StoreEnvVar` followed by `Pop` and `PushVoid` (so the
form's value is `Void`); in `BodyStart` context declares a new local and
emits `StoreLocalVar`; and in `BodyRest` context fails with the
compile-time define-misplacement error.  The context is the one in force
after compiling `E`. -/
theorem c5_define_form_lowering :
    (∀ (fuelLeft : Nat) (c : Compiler) (x : String) (E : Expr) (c1 : Compiler),
      compileExpr fuelLeft { c with env := (c.env.internVar x).1 } E = .ok c1 →
      c1.context = .topLevel →
      ∃ c', compileDefineForm (fuelLeft + 1) c [.ident x, E] =
          .ok (c', (c.env.internVar x).2) ∧
        c'.proc.code = c1.proc.code ++
          [.storeEnvVar (c.env.internVar x).2, .pop, .pushVoid]) ∧
    (∀ (fuelLeft : Nat) (c : Compiler) (x : String) (E : Expr)
        (c1 c2 : Compiler) (lid : Nat),
      compileExpr fuelLeft { c with env := (c.env.internVar x).1 } E = .ok c1 →
      c1.context = .bodyStart →
      c1.declareLocal x = .ok (c2, lid) →
      ∃ c', compileDefineForm (fuelLeft + 1) c [.ident x, E] =
          .ok (c', (c.env.internVar x).2) ∧
        c'.proc.code = c1.proc.code ++ [.storeLocalVar lid] ∧
        c'.locals.length = c1.locals.length + 1) ∧
    (∀ (fuelLeft : Nat) (c : Compiler) (x : String) (E : Expr) (c1 : Compiler),
      compileExpr fuelLeft { c with env := (c.env.internVar x).1 } E = .ok c1 →
      c1.context = .bodyRest →
      compileDefineForm (fuelLeft + 1) c [.ident x, E] =
        .err "ill-formed special form: define must appear at top-level or first in body") := by
  refine ⟨?_, ?_, ?_⟩
  · intro fuelLeft c x E c1 h hctx
    refine ⟨((c1.emitOp (.storeEnvVar (c.env.internVar x).2)).emitOp .pop).emitOp
        .pushVoid, ?_, ?_⟩
    · simp only [compileDefineForm, List.get?_cons_zero, List.get?_cons_succ,
        Option.getD_some, h, hctx]
    · simp [Compiler.emitOp, ProcState.emitOp]
  · intro fuelLeft c x E c1 c2 lid h hctx hdecl
    obtain ⟨hc2, -⟩ := declareLocal_inv c1 x c2 lid hdecl
    refine ⟨c2.emitOp (.storeLocalVar lid), ?_, ?_, ?_⟩
    · simp only [compileDefineForm, List.get?_cons_zero, List.get?_cons_succ,
        Option.getD_some, h, hctx, hdecl]
    · simp [hc2, Compiler.emitOp, ProcState.emitOp]
    · simp [hc2, Compiler.emitOp]
  · intro fuelLeft c x E c1 h hctx
    simp only [compileDefineForm, List.get?_cons_zero, List.get?_cons_succ,
      Option.getD_some, h, hctx]

/-- **C5 witness.** The hypotheses of `c5_define_form_lowering` discharged
at concrete inputs: `(define x #t)` compiled from a fresh compiler in each
of the three contexts. -/
theorem c5_define_form_lowering_witness :
    (∃ c', compileDefineForm 2 (freshCompiler .topLevel) [.ident "x", .bool true] =
        .ok (c', 0) ∧
      c'.proc.code = [.pushTrue] ++ [.storeEnvVar 0, .pop, .pushVoid]) ∧
    (∃ c', compileDefineForm 2 (freshCompiler .bodyStart) [.ident "x", .bool true] =
        .ok (c', 0) ∧
      c'.proc.code = [.pushTrue] ++ [.storeLocalVar 0] ∧
      c'.locals.length = 0 + 1) ∧
    compileDefineForm 2 (freshCompiler .bodyRest) [.ident "x", .bool true] =
      .err "ill-formed special form: define must appear at top-level or first in body" :=
  ⟨c5_define_form_lowering.1 1 (freshCompiler .topLevel) "x" (.bool true) _ rfl rfl,
    c5_define_form_lowering.2.1 1 (freshCompiler .bodyStart) "x" (.bool true) _ _ 0
      rfl rfl rfl,
    c5_define_form_lowering.2.2 1 (freshCompiler .bodyRest) "x" (.bool true) _ rfl rfl⟩

end Scheme
